import Mathlib

/-!
Verification model of the `UploadTask` class of firebase-storage-lite
(`src/UploadTask.js`, the class taking `{ bucket, name, blob, metadata, auth }`)
together with the query-string helper of `src/utils.js`.

The JavaScript is shallowly embedded: blobs are modelled by their byte size
and content type, HTTP exchanges by explicit request/response records, and the
recursive `resumeUpload` promise chain by a Lean function that consumes a list
of server responses (one response per issued request; an empty list means the
next response has not arrived, leaving the task pending).
-/

namespace FirebaseStorageLite

/-- Upper-case hexadecimal digit, as produced by `encodeURIComponent`. -/
def hexUpper (n : Nat) : Char :=
if n < 10 then Char.ofNat (48 + n) else Char.ofNat (55 + n)

/-- UTF-8 byte sequence of a code point, used by `encodeURIComponent`. -/
def utf8Bytes (n : Nat) : List Nat :=
if n < 128 then [n]
else if n < 2048 then [192 + n / 64, 128 + n % 64]
else if n < 65536 then [224 + n / 4096, 128 + (n / 64) % 64, 128 + n % 64]
else [240 + n / 262144, 128 + (n / 4096) % 64, 128 + (n / 64) % 64, 128 + n % 64]

/-- `%XX` escape of one byte. -/
def percentEncodeByte (n : Nat) : List Char :=
['%', hexUpper (n / 16), hexUpper (n % 16)]

/-- The characters `encodeURIComponent` leaves unescaped:
`A-Z a-z 0-9 - _ . ! ~ * ' ( )`. -/
def isUnescapedChar (c : Char) : Bool :=
c.isAlphanum || c ∈ ['-', '_', '.', '!', '~', '*', '\'', '(', ')']

/-- JavaScript `encodeURIComponent`. -/
def encodeURIComponent (s : String) : String :=
String.mk (s.data.foldr
  (fun c acc =>
    (if isUnescapedChar c then [c]
     else (utf8Bytes c.toNat).foldr (fun b bs => percentEncodeByte b ++ bs) []) ++ acc)
  [])

/-- `objectToQuery` from `src/utils.js`: `undefined` values are skipped, the
remaining properties are joined as `key=encodeURIComponent(value)` pairs with
`&`, and a leading `?` is added unless no property remains. -/
def objectToQuery (obj : List (String × Option String)) : String :=
let propsArr := obj.foldr
  (fun p acc =>
    match p.2 with
    | none => acc
    | some v => (p.1 ++ "=" ++ encodeURIComponent v) :: acc)
  []
if propsArr.length = 0 then "" else "?" ++ String.intercalate "&" propsArr

/-- Last-binding-wins lookup in a JavaScript-object model: an object literal
with spreads is modelled as the list of its property assignments in order,
and reading a property returns the value of its latest assignment. -/
def objGet (o : List (String × String)) (k : String) : Option String :=
(o.reverse.find? (fun p => p.1 == k)).map (fun p => p.2)

/-- Minimal JSON string escaping (backslash and double quote). -/
def jsonEscape (s : String) : String :=
String.mk (s.data.foldr
  (fun c acc =>
    (if c = '"' then ['\\', '"'] else if c = '\\' then ['\\', '\\'] else [c]) ++ acc)
  [])

/-- Property names in first-assignment order without duplicates, matching the
key order `JSON.stringify` uses for a JavaScript object. -/
def objKeysAux (seen : List String) : List (String × String) → List String
| [] => []
| p :: rest =>
  if p.1 ∈ seen then objKeysAux seen rest
  else p.1 :: objKeysAux (p.1 :: seen) rest

/-- `JSON.stringify` of a string-valued JavaScript object. -/
def jsonStringify (o : List (String × String)) : String :=
"\x7b" ++ String.intercalate ","
  ((objKeysAux [] o).map
    (fun k => "\"" ++ jsonEscape k ++ "\":\"" ++ jsonEscape ((objGet o k).getD "") ++ "\""))
  ++ "\x7d"

/-- Does the pattern occur at the head of the character list? -/
def startsWithList : List Char → List Char → Bool
| [], _ => true
| _ :: _, [] => false
| a :: ps, b :: ss => a == b && startsWithList ps ss

/-- Replace the first occurrence of `pat` (scanning left to right), as
JavaScript `String.prototype.replace` does for a plain-string pattern. -/
def replaceFirstList (pat rep : List Char) : List Char → List Char
| [] => []
| c :: cs =>
  if startsWithList pat (c :: cs) then rep ++ List.drop pat.length (c :: cs)
  else c :: replaceFirstList pat rep cs

/-- String form of `replaceFirstList`. -/
def replaceFirstStr (s pat rep : String) : String :=
String.mk (replaceFirstList pat.data rep.data s.data)

/-- `headers.get`, returning `none` for a missing header (JavaScript `null`).
The code always queries with the exact lowercase names it receives. -/
def headerGet (hs : List (String × String)) (k : String) : Option String :=
(hs.find? (fun p => p.1 == k)).map (fun p => p.2)

/-- A `Blob`: total byte size and MIME type. -/
structure Blob where
  size : Nat
  type : String
deriving DecidableEq

/-- `Blob.prototype.slice(start, end).size`: both endpoints are clamped to
`[0, size]` and an inverted range yields an empty blob. -/
def blobSliceSize (size start stop : Nat) : Nat :=
min stop size - min start size

/-- `baseApiURL` from `src/utils.js`. -/
def baseApiURL : String := "https://firebasestorage.googleapis.com/v0/"

/-- `name.replace(/^\//, '')` in the `UploadTask` constructor: the regular
expression has no global flag and is anchored, so at most the single leading
slash is removed. -/
def stripLeadingSlash (s : String) : String :=
match s.data with
| '/' :: rest => String.mk rest
| _ => s

/-- The state the `UploadTask` constructor saves on the instance. -/
structure UploadTask where
  blob : Blob
  metadata : List (String × String)
  baseURL : String
deriving DecidableEq

/-- The `UploadTask` constructor: merges the caller metadata with the task's
own `name` (leading slash stripped) and `contentType` (the blob's type), the
task-assigned pair being written after the spread and therefore winning, and
derives the base URL from the bucket. -/
def mkUploadTask (bucket name : String) (blob : Blob)
    (metadata : List (String × String)) : UploadTask :=
{ blob := blob
  metadata := metadata ++ [("name", stripLeadingSlash name), ("contentType", blob.type)]
  baseURL := baseApiURL ++ "b/" ++ bucket ++ "/o" }

/-- `metadata.name` of a task (the constructor always assigns it). -/
def taskName (t : UploadTask) : String :=
(objGet t.metadata "name").getD ""

/-- The two branches of `UploadTask.start`. -/
inductive UploadMode where
| simple
| resumable
deriving DecidableEq

/-- The dispatch in `start()`: blobs smaller than 5,000,000 bytes take the
simple (multipart) upload, the rest the resumable upload. -/
def startMode (b : Blob) : UploadMode :=
if b.size < 5000000 then UploadMode.simple else UploadMode.resumable

/-- An HTTP response as the chunk loop and the simple upload observe it:
`ok`, the `x-goog-upload-status` header, `response.text()` and the value of
`response.json()`. -/
structure HttpResponse where
  ok : Bool
  uploadStatus : Option String
  bodyText : String
  bodyJson : String
deriving DecidableEq

/-- Terminal (or still-pending) state of the task's promise. -/
inductive Outcome where
| resolved (json : String)
| failed (text : String)
| pending
deriving DecidableEq

/-- One chunk request of the resumable loop: its `X-Goog-Upload-Offset`
header, the byte size of its body slice, and its `X-Goog-Upload-Command`
header. -/
structure ChunkRequest where
  offset : Nat
  size : Nat
  command : String
deriving DecidableEq

/-- Everything observable about a run of the chunk loop: the requests issued
in order, the successive values of the task's `offset` field, and the final
state of the promise. -/
structure RunState where
  requests : List ChunkRequest
  offsets : List Nat
  outcome : Outcome
deriving DecidableEq

/-- The request `resumeUpload` builds at a given offset:
`currentChunk = blob.slice(offset, offset + granularity)`,
`isLastChunk = currentChunk.size < granularity`, command
`upload, finalize` for the last chunk and `upload` otherwise. -/
def mkChunkRequest (s g offset : Nat) : ChunkRequest :=
{ offset := offset
  size := blobSliceSize s offset (offset + g)
  command :=
    if blobSliceSize s offset (offset + g) < g then "upload, finalize" else "upload" }

/-- `resumeUpload` from `src/UploadTask.js`, driven by the list of server
responses (one per request, in order). Per response: a non-`ok` response makes
the chain throw `response.text()`; an `ok` response whose
`x-goog-upload-status` header is `final` resolves with `response.json()`
without touching `offset`; otherwise `offset` advances by the chunk size and
the loop recurses. An exhausted response list leaves the task pending with
its last request in flight. -/
def resumeUpload (s g offset : Nat) : List HttpResponse → RunState
| [] => ⟨[mkChunkRequest s g offset], [offset], Outcome.pending⟩
| r :: rest =>
  let req := mkChunkRequest s g offset
  if r.ok = false then ⟨[req], [offset], Outcome.failed r.bodyText⟩
  else if r.uploadStatus = some "final" then ⟨[req], [offset], Outcome.resolved r.bodyJson⟩
  else
    let next := resumeUpload s g (offset + req.size) rest
    ⟨req :: next.requests, offset :: next.offsets, next.outcome⟩

/-- An `ok` response that does not yet report completion. -/
def okNonFinal : HttpResponse := ⟨true, none, "", ""⟩

/-- An `ok` response whose `x-goog-upload-status` header is `final` and whose
body parses to `j`. -/
def okFinal (j : String) : HttpResponse := ⟨true, some "final", "", j⟩

/-- The well-behaved server of the resumable protocol: it acknowledges every
`upload` chunk with an `ok`, non-final response and answers the
`upload, finalize` request with status `final`. For granularity `g > 0` and
payload size `s` that is `s / g` non-final responses followed by one final
response; `resumeUpload_honest` below confirms that this aligns exactly with
the commands the loop sends. -/
def honestResponses (s g : Nat) (j : String) : List HttpResponse :=
List.replicate (s / g) okNonFinal ++ [okFinal j]

/-- Modelled from the spec: the claimed chunk-request count `ceil(s / g)`. -/
def specCeil (s g : Nat) : Nat := (s + g - 1) / g

/-- The session-start response: its `ok` flag and its headers. -/
structure SessionResponse where
  ok : Bool
  headers : List (String × String)
deriving DecidableEq

/-- `Number(resumableSessionHeaders.get('x-goog-upload-chunk-granularity'))`:
a missing header is `null` and `Number(null)` is `0`. A present non-numeric
value gives `NaN`, which drives the chunk loop exactly as `0` does (the slice
end `offset + NaN` makes the slice empty and `0 < NaN` is false), so the
model maps it to `0` as well. -/
def sessionGranularity (hs : List (String × String)) : Nat :=
match headerGet hs "x-goog-upload-chunk-granularity" with
| none => 0
| some v => v.toNat?.getD 0

/-- `startResumableUpload` from `src/UploadTask.js` after the session-start
request: the source reads the session headers without checking
`response.ok` (its comment: `TODO: Check if the response was "ok"`), stores
the granularity, sets `offset = 0` and enters `resumeUpload`. -/
def startResumableUpload (t : UploadTask) (sess : SessionResponse)
    (chunkResponses : List HttpResponse) : RunState :=
let granularity := sessionGranularity sess.headers
resumeUpload t.blob.size granularity 0 chunkResponses

/-- The single request `simpleUpload` builds: URL, the `Content-Type` after
the `form-data` → `related` rewrite, the `X-Goog-Upload-Protocol` header, the
metadata part (type and content) and the payload part's size. -/
structure SimpleRequest where
  url : String
  contentType : String
  uploadProtocol : String
  metadataPartType : String
  metadataPartContent : String
  payloadSize : Nat
deriving DecidableEq

/-- `simpleUpload` request construction from `src/UploadTask.js`: a
`FormData` body (whose request carries `Content-Type:
multipart/form-data; boundary=...`) holding a JSON metadata blob typed
`application/json; charset=UTF-8` and the payload blob; after construction
the code replaces `form-data` with `related` in the `Content-Type` header and
sets `X-Goog-Upload-Protocol: multipart`. The URL is
`baseURL + objectToQuery({ name: metadata.name })`. -/
def simpleUploadRequest (t : UploadTask) (boundary : String) : SimpleRequest :=
{ url := t.baseURL ++ objectToQuery [("name", some (taskName t))]
  contentType :=
    replaceFirstStr ("multipart/form-data; boundary=" ++ boundary) "form-data" "related"
  uploadProtocol := "multipart"
  metadataPartType := "application/json; charset=UTF-8"
  metadataPartContent := jsonStringify t.metadata
  payloadSize := t.blob.size }

/-- The whole simple-upload path: exactly one fetch; a non-`ok` response
makes the promise chain throw `response.text()`, an `ok` response resolves
with `response.json()`. -/
def simpleUploadRun (t : UploadTask) (boundary : String) (r : HttpResponse) :
    List SimpleRequest × Outcome :=
([simpleUploadRequest t boundary],
 if r.ok = false then Outcome.failed r.bodyText else Outcome.resolved r.bodyJson)

/-! Helper lemmas about the chunk loop. -/

lemma blobSliceSize_chunk (s g offset : Nat) :
    blobSliceSize s offset (offset + g) = min (s - offset) g := by
  unfold blobSliceSize
  omega

lemma mkChunkRequest_full (s g offset : Nat) (h : g ≤ s - offset) :
    mkChunkRequest s g offset = ⟨offset, g, "upload"⟩ := by
  unfold mkChunkRequest
  rw [blobSliceSize_chunk]
  have hm : min (s - offset) g = g := by omega
  rw [hm, if_neg (lt_irrefl g)]

lemma mkChunkRequest_last (s g offset r : Nat) (hr : r < g) (h : s - offset = r) :
    mkChunkRequest s g offset = ⟨offset, r, "upload, finalize"⟩ := by
  unfold mkChunkRequest
  rw [blobSliceSize_chunk]
  have hm : min (s - offset) g = r := by omega
  rw [hm, if_pos hr]

/-- Closed form of the chunk loop against the well-behaved server, for any
starting offset: writing the remaining payload as `n` full chunks plus a
remainder `r < g`, the loop issues `n` requests of size `g` with command
`upload`, then one request of size `r` with command `upload, finalize`, the
offset advances through the same multiples of `g`, and the task resolves with
the final response's JSON body. In particular the non-final responses land
exactly on the `upload` requests and the final response on the finalizing
one, so `List.replicate n okNonFinal ++ [okFinal j]` is indeed the honest
server's answer sequence. -/
lemma resumeUpload_honest (g : Nat) (j : String) :
    ∀ (n offset r s : Nat), r < g → s = offset + n * g + r →
    resumeUpload s g offset (List.replicate n okNonFinal ++ [okFinal j]) =
      ⟨(List.range n).map (fun i => ⟨offset + i * g, g, "upload"⟩)
         ++ [⟨offset + n * g, r, "upload, finalize"⟩],
       (List.range n).map (fun i => offset + i * g) ++ [offset + n * g],
       Outcome.resolved j⟩ := by
  intro n
  induction n with
  | zero =>
    intro offset r s hr hs
    simp only [List.replicate, List.nil_append, List.range_zero, List.map_nil,
      Nat.zero_mul, Nat.add_zero]
    rw [resumeUpload, mkChunkRequest_last s g offset r hr (by omega)]
    simp [okFinal]
  | succ n ih =>
    intro offset r s hr hs
    have e1 : (n + 1) * g = n * g + g := by ring
    rw [e1] at hs
    have hfull : g ≤ s - offset := by omega
    rw [List.replicate_succ, List.cons_append, resumeUpload,
      mkChunkRequest_full s g offset hfull]
    rw [if_neg (by decide), if_neg (by decide)]
    have h2 : s = offset + g + n * g + r := by omega
    rw [ih (offset + g) r s hr h2]
    have e3 : ((fun i => (⟨offset + i * g, g, "upload"⟩ : ChunkRequest)) ∘ Nat.succ)
        = fun i => (⟨offset + g + i * g, g, "upload"⟩ : ChunkRequest) := by
      funext i
      simp only [Function.comp_apply, Nat.succ_eq_add_one, ChunkRequest.mk.injEq,
        and_true, true_and]
      ring
    have e4 : ((fun i => offset + i * g) ∘ Nat.succ) = fun i => offset + g + i * g := by
      funext i
      simp only [Function.comp_apply, Nat.succ_eq_add_one]
      ring
    rw [e1]
    have ex : (⟨offset + (n * g + g), r, "upload, finalize"⟩ : ChunkRequest)
        = ⟨offset + g + n * g, r, "upload, finalize"⟩ := by
      simp only [ChunkRequest.mk.injEq, and_true, true_and]
      omega
    rw [ex]
    have eo : offset + (n * g + g) = offset + g + n * g := by omega
    rw [eo]
    rw [List.range_succ_eq_map, List.map_cons, List.map_map, List.map_cons, List.map_map,
      e3, e4]
    simp only [Nat.zero_mul, Nat.add_zero, List.cons_append]

/-- For any response sequence, the offset trace starts at the initial offset,
is monotone, and stays within the payload size. -/
lemma offsets_invariant (s g : Nat) :
    ∀ (rs : List HttpResponse) (offset : Nat), offset ≤ s →
    (resumeUpload s g offset rs).offsets.head? = some offset ∧
    List.Chain' (fun a b => a ≤ b) (resumeUpload s g offset rs).offsets ∧
    ∀ x ∈ (resumeUpload s g offset rs).offsets, x ≤ s := by
  intro rs
  induction rs with
  | nil =>
    intro offset ho
    refine ⟨rfl, ?_, ?_⟩
    · simp [resumeUpload]
    · intro x hx
      simp [resumeUpload] at hx
      omega
  | cons r rest ih =>
    intro offset ho
    rw [resumeUpload]
    by_cases h1 : r.ok = false
    · rw [if_pos h1]
      refine ⟨rfl, by simp, ?_⟩
      intro x hx
      simp at hx
      omega
    · rw [if_neg h1]
      by_cases h2 : r.uploadStatus = some "final"
      · rw [if_pos h2]
        refine ⟨rfl, by simp, ?_⟩
        intro x hx
        simp at hx
        omega
      · rw [if_neg h2]
        have hsz : (mkChunkRequest s g offset).size = min (s - offset) g := by
          unfold mkChunkRequest
          rw [blobSliceSize_chunk]
        have ho2 : offset + (mkChunkRequest s g offset).size ≤ s := by
          rw [hsz]; omega
        obtain ⟨ihh, ihc, ihb⟩ := ih (offset + (mkChunkRequest s g offset).size) ho2
        refine ⟨rfl, ?_, ?_⟩
        · rw [List.chain'_cons']
          refine ⟨?_, ihc⟩
          intro b hb
          rw [ihh] at hb
          simp at hb
          omega
        · intro x hx
          simp at hx
          rcases hx with hx | hx
          · omega
          · exact ihb x hx

/-- Every request the loop ever issues takes its command from its own slice
size: `upload, finalize` exactly when the slice is shorter than the
granularity. -/
lemma command_of_size (s g : Nat) :
    ∀ (rs : List HttpResponse) (offset : Nat) (req : ChunkRequest),
    req ∈ (resumeUpload s g offset rs).requests →
    req.command = if req.size < g then "upload, finalize" else "upload" := by
  intro rs
  induction rs with
  | nil =>
    intro offset req hreq
    simp [resumeUpload] at hreq
    subst hreq
    rfl
  | cons r rest ih =>
    intro offset req hreq
    rw [resumeUpload] at hreq
    by_cases h1 : r.ok = false
    · rw [if_pos h1] at hreq
      simp at hreq
      subst hreq
      rfl
    · rw [if_neg h1] at hreq
      by_cases h2 : r.uploadStatus = some "final"
      · rw [if_pos h2] at hreq
        simp at hreq
        subst hreq
        rfl
      · rw [if_neg h2] at hreq
        simp at hreq
        rcases hreq with hreq | hreq
        · subst hreq
          rfl
        · exact ih _ req hreq

lemma honestResponses_eq (s g : Nat) (j : String) :
    honestResponses s g j = List.replicate (s / g) okNonFinal ++ [okFinal j] := rfl

lemma split_payload (s g : Nat) : s = 0 + (s / g) * g + s % g := by
  rw [Nat.zero_add, mul_comm, Nat.div_add_mod]

lemma sub_mod_eq (s g : Nat) : s - s % g = g * (s / g) :=
  Nat.sub_eq_of_eq_add (Nat.div_add_mod s g).symm

/-- After a failing response the loop stops: however many successful
non-final responses preceded it, the requests end at the failing one and the
task fails with that response's body text. -/
lemma resumeUpload_replicate_bad (s g : Nat) (bad : HttpResponse) (hbad : bad.ok = false)
    (rest : List HttpResponse) :
    ∀ (n offset : Nat),
    (resumeUpload s g offset (List.replicate n okNonFinal ++ bad :: rest)).requests.length
      = n + 1 ∧
    (resumeUpload s g offset (List.replicate n okNonFinal ++ bad :: rest)).outcome
      = Outcome.failed bad.bodyText := by
  intro n
  induction n with
  | zero =>
    intro offset
    rw [List.replicate_zero, List.nil_append, resumeUpload, if_pos hbad]
    exact ⟨rfl, rfl⟩
  | succ n ih =>
    intro offset
    rw [List.replicate_succ, List.cons_append, resumeUpload,
      if_neg (by decide), if_neg (by decide)]
    obtain ⟨ih1, ih2⟩ := ih (offset + (mkChunkRequest s g offset).size)
    exact ⟨by simpa using ih1, ih2⟩

lemma mkChunkRequest_zero_gran (s offset : Nat) :
    mkChunkRequest s 0 offset = ⟨offset, 0, "upload"⟩ := by
  unfold mkChunkRequest
  have h0 : blobSliceSize s offset (offset + 0) = 0 := by
    unfold blobSliceSize
    omega
  rw [h0, if_neg (lt_irrefl 0)]

/-- With granularity `0` (a missing or invalid granularity header) the loop
never advances and never finalizes: after any number of acknowledged
responses it has issued only zero-byte `upload` requests at offset `0` and
is still pending. -/
lemma resumeUpload_zero_gran (s : Nat) :
    ∀ (n offset : Nat),
    resumeUpload s 0 offset (List.replicate n okNonFinal) =
      ⟨List.replicate (n + 1) ⟨offset, 0, "upload"⟩, List.replicate (n + 1) offset,
       Outcome.pending⟩ := by
  intro n
  induction n with
  | zero =>
    intro offset
    rw [List.replicate_zero, resumeUpload, mkChunkRequest_zero_gran]
    rfl
  | succ n ih =>
    intro offset
    rw [List.replicate_succ, resumeUpload, if_neg (by decide), if_neg (by decide),
      mkChunkRequest_zero_gran]
    rw [show (⟨offset, 0, "upload"⟩ : ChunkRequest).size = 0 from rfl]
    rw [Nat.add_zero, ih offset]
    rw [List.replicate_succ (n := n + 1)]
    rw [List.replicate_succ (n := n + 1)]

lemma replaceFirstList_formData (l : List Char) :
    replaceFirstList ("form-data".data) ("related".data)
      (("multipart/form-data; boundary=".data) ++ l)
    = ("multipart/related; boundary=".data) ++ l := by
  rfl

/-! Claim theorems. -/

/-- C1, amended: after a successful session start against the well-behaved
server, the loop issues exactly `s / g + 1` chunk requests (that is,
`ceil(s / g)` when `g` does not divide `s`, and one more when it does,
including one request for an empty payload), and the final request is the
`upload, finalize` one carrying the short slice of `s % g < g` bytes. -/
theorem c1_amended (s g : Nat) (j : String) (hg : 0 < g) :
    (resumeUpload s g 0 (honestResponses s g j)).requests.length = s / g + 1 ∧
    (resumeUpload s g 0 (honestResponses s g j)).requests.getLast? =
      some ⟨s - s % g, s % g, "upload, finalize"⟩ ∧
    s % g < g := by
  have hmod : s % g < g := Nat.mod_lt _ hg
  rw [honestResponses_eq, resumeUpload_honest g j (s / g) 0 (s % g) s hmod (split_payload s g)]
  refine ⟨by simp, ?_, hmod⟩
  rw [List.getLast?_concat]
  have h0 : (0 : Nat) + s / g * g = s - s % g := by
    rw [Nat.zero_add, mul_comm, ← sub_mod_eq]
  rw [h0]

/-- C1, counterexample: for payload size 1 and granularity 1 the loop issues
2 chunk requests (a full 1-byte chunk, then the zero-byte finalizing chunk),
not `ceil(1 / 1) = 1` as claimed. -/
theorem c1_counterexample :
    (resumeUpload 1 1 0 (honestResponses 1 1 "meta")).requests.length ≠ specCeil 1 1 := by
  decide

/-- C1, witness: at size 5 and granularity 2 the amended count is
`5 / 2 + 1 = 3`. -/
theorem c1_witness :
    (resumeUpload 5 2 0 (honestResponses 5 2 "meta")).requests.length = 5 / 2 + 1 :=
  (c1_amended 5 2 "meta" (by decide)).1

/-- C2: a successful chunk response whose `x-goog-upload-status` header is
`final` makes the loop resolve with the response's JSON body at once: the
run from that point consists of exactly the one request, whatever responses
would follow and however many bytes of the payload remain unsent, and the
offset is left untouched. -/
theorem c2_final_resolves (s g offset : Nat) (r : HttpResponse) (rest : List HttpResponse)
    (hok : r.ok = true) (hfin : r.uploadStatus = some "final") :
    resumeUpload s g offset (r :: rest) =
      ⟨[mkChunkRequest s g offset], [offset], Outcome.resolved r.bodyJson⟩ := by
  rw [resumeUpload, if_neg (by rw [hok]; simp), if_pos hfin]

/-- C2, witness: a `final` response at offset 0 of a 10-byte payload resolves
immediately even though a further response was queued. -/
theorem c2_witness :
    resumeUpload 10 4 0 (⟨true, some "final", "", "meta"⟩ :: [okNonFinal]) =
      ⟨[mkChunkRequest 10 4 0], [0], Outcome.resolved "meta"⟩ :=
  c2_final_resolves 10 4 0 ⟨true, some "final", "", "meta"⟩ [okNonFinal] rfl rfl

/-- C3: `start()` dispatches to the simple upload exactly for payloads
strictly below 5,000,000 bytes and to the resumable upload otherwise, and
the simple path issues exactly one request, tagged
`X-Goog-Upload-Protocol: multipart`. -/
theorem c3_threshold_dispatch :
    (∀ b : Blob, startMode b = UploadMode.simple ↔ b.size < 5000000) ∧
    (∀ b : Blob, startMode b = UploadMode.resumable ↔ 5000000 ≤ b.size) ∧
    (∀ (t : UploadTask) (bd : String) (r : HttpResponse),
      (simpleUploadRun t bd r).1 = [simpleUploadRequest t bd] ∧
      (simpleUploadRequest t bd).uploadProtocol = "multipart") := by
  refine ⟨?_, ?_, ?_⟩
  · intro b
    unfold startMode
    by_cases h : b.size < 5000000
    · simp [h]
    · simp [h]
  · intro b
    unfold startMode
    by_cases h : b.size < 5000000
    · simp [h]
    · simp [h]
      omega
  · intro t bd r
    exact ⟨rfl, rfl⟩

/-- C4, counterexample: for payload size 3 and granularity 2 the run
completes successfully but the task's offset ends at 2, not at the payload
size 3, because the offset update is skipped on the final response. -/
theorem c4_counterexample :
    (resumeUpload 3 2 0 (honestResponses 3 2 "meta")).outcome = Outcome.resolved "meta" ∧
    (resumeUpload 3 2 0 (honestResponses 3 2 "meta")).offsets.getLast? = some 2 ∧
    (2 : Nat) ≠ 3 := by
  decide

/-- C4, amended: the offset starts at 0, is monotonically non-decreasing and
never exceeds the payload size for every response sequence; on the
well-behaved server the terminal offset is `s - s % g` (the update is skipped
on the finalizing response), which equals the payload size exactly when the
granularity divides it. -/
theorem c4_amended (s g : Nat) (j : String) (hg : 0 < g) :
    (∀ rs : List HttpResponse,
      (resumeUpload s g 0 rs).offsets.head? = some 0 ∧
      List.Chain' (fun a b => a ≤ b) (resumeUpload s g 0 rs).offsets ∧
      ∀ x ∈ (resumeUpload s g 0 rs).offsets, x ≤ s) ∧
    (resumeUpload s g 0 (honestResponses s g j)).offsets.getLast? = some (s - s % g) := by
  constructor
  · intro rs
    exact offsets_invariant s g rs 0 (Nat.zero_le s)
  · have hmod : s % g < g := Nat.mod_lt _ hg
    rw [honestResponses_eq,
      resumeUpload_honest g j (s / g) 0 (s % g) s hmod (split_payload s g)]
    rw [List.getLast?_concat]
    have h0 : (0 : Nat) + s / g * g = s - s % g := by
      rw [Nat.zero_add, mul_comm, ← sub_mod_eq]
    rw [h0]

/-- C4, witness: the amended terminal offset at size 3, granularity 2. -/
theorem c4_witness :
    (resumeUpload 3 2 0 (honestResponses 3 2 "meta")).offsets.getLast? = some (3 - 3 % 2) :=
  (c4_amended 3 2 "meta" (by decide)).2

/-- C5: in every run each chunk request's command is derived solely from its
slice size (`upload, finalize` exactly when the slice is shorter than the
granularity), and against the well-behaved server the request sequence is
`s / g` full-granularity `upload` requests followed by one short
`upload, finalize` request of `s % g` bytes. -/
theorem c5_commands (s g : Nat) (j : String) (hg : 0 < g) :
    (∀ (rs : List HttpResponse) (offset : Nat) (req : ChunkRequest),
      req ∈ (resumeUpload s g offset rs).requests →
      req.command = if req.size < g then "upload, finalize" else "upload") ∧
    (resumeUpload s g 0 (honestResponses s g j)).requests =
      (List.range (s / g)).map (fun i => ⟨i * g, g, "upload"⟩)
        ++ [⟨s - s % g, s % g, "upload, finalize"⟩] := by
  constructor
  · exact command_of_size s g
  · have hmod : s % g < g := Nat.mod_lt _ hg
    rw [honestResponses_eq,
      resumeUpload_honest g j (s / g) 0 (s % g) s hmod (split_payload s g)]
    have e5 : (fun i => (⟨0 + i * g, g, "upload"⟩ : ChunkRequest))
        = fun i => (⟨i * g, g, "upload"⟩ : ChunkRequest) := by
      funext i
      simp
    have h0 : (0 : Nat) + s / g * g = s - s % g := by
      rw [Nat.zero_add, mul_comm, ← sub_mod_eq]
    rw [e5, h0]

/-- C5, witness: at size 3, granularity 2 the requests are one full `upload`
chunk and one short finalizing chunk. -/
theorem c5_witness :
    (resumeUpload 3 2 0 (honestResponses 3 2 "meta")).requests =
      [⟨0, 2, "upload"⟩, ⟨2, 1, "upload, finalize"⟩] := by
  rw [(c5_commands 3 2 "meta" (by decide)).2]
  decide

/-- C6: a non-`ok` response to a chunk request fails the task with the
response body text and stops the loop at that request (whatever the history
of successful chunks before it and whatever responses would follow), and a
non-`ok` response to the simple upload likewise fails the task with the body
text after its single request. -/
theorem c6_non_ok_fails :
    (∀ (s g offset : Nat) (r : HttpResponse) (rest : List HttpResponse), r.ok = false →
      resumeUpload s g offset (r :: rest) =
        ⟨[mkChunkRequest s g offset], [offset], Outcome.failed r.bodyText⟩) ∧
    (∀ (s g n : Nat) (bad : HttpResponse) (rest : List HttpResponse), bad.ok = false →
      (resumeUpload s g 0 (List.replicate n okNonFinal ++ bad :: rest)).requests.length
        = n + 1 ∧
      (resumeUpload s g 0 (List.replicate n okNonFinal ++ bad :: rest)).outcome
        = Outcome.failed bad.bodyText) ∧
    (∀ (t : UploadTask) (bd : String) (r : HttpResponse), r.ok = false →
      simpleUploadRun t bd r = ([simpleUploadRequest t bd], Outcome.failed r.bodyText)) := by
  refine ⟨?_, ?_, ?_⟩
  · intro s g offset r rest hr
    rw [resumeUpload, if_pos hr]
  · intro s g n bad rest hbad
    exact resumeUpload_replicate_bad s g bad hbad rest n 0
  · intro t bd r hr
    unfold simpleUploadRun
    rw [if_pos hr]

/-- C6, witness: a failing first chunk response stops the run at one request
and surfaces the body text, with a further response queued. -/
theorem c6_witness :
    resumeUpload 9 4 0 (⟨false, none, "server error", ""⟩ :: [okNonFinal]) =
      ⟨[mkChunkRequest 9 4 0], [0], Outcome.failed "server error"⟩ :=
  c6_non_ok_fails.1 9 4 0 ⟨false, none, "server error", ""⟩ [okNonFinal] rfl

/-- C7: the code does not check the session-start response's `ok` flag (the
source carries a `TODO` for it). With a failed session start (`ok = false`,
no headers) it still proceeds into chunk iteration — here issuing two chunk
requests and remaining pending — instead of failing with a session-start
error. -/
theorem c7_session_start_not_checked :
    (startResumableUpload (mkUploadTask "bucket" "some/object" ⟨10, "text/plain"⟩ [])
        ⟨false, []⟩ [okNonFinal]).requests.length = 2 ∧
    (startResumableUpload (mkUploadTask "bucket" "some/object" ⟨10, "text/plain"⟩ [])
        ⟨false, []⟩ [okNonFinal]).outcome = Outcome.pending := by
  decide

/-- C8: when the session-start response lacks the
`x-goog-upload-chunk-granularity` header, the parsed granularity is `0`
(`Number(null)`), and instead of failing fast the task loops: after `n`
acknowledged responses it has issued `n + 1` zero-byte `upload` requests at
offset 0 and is still pending, for every `n`. -/
theorem c8_missing_granularity_loops (n : Nat) :
    startResumableUpload (mkUploadTask "bucket" "some/object" ⟨1, "text/plain"⟩ [])
        ⟨true, [("x-goog-upload-url", "https://upload.example/session")]⟩
        (List.replicate n okNonFinal) =
      ⟨List.replicate (n + 1) ⟨0, 0, "upload"⟩, List.replicate (n + 1) 0,
       Outcome.pending⟩ := by
  unfold startResumableUpload
  have hgran :
      sessionGranularity [("x-goog-upload-url", "https://upload.example/session")] = 0 := by
    decide
  rw [hgran]
  exact resumeUpload_zero_gran _ n 0

/-- C9: the simple upload's single request targets
`{baseURL}?name={encoded object name}`, carries `Content-Type:
multipart/related; boundary=...` (obtained by replacing `form-data` with
`related` after construction) and `X-Goog-Upload-Protocol: multipart`, and
its body is the JSON metadata part typed `application/json; charset=UTF-8`
followed by the payload bytes. -/
theorem c9_simple_request (t : UploadTask) (bd : String) :
    (simpleUploadRequest t bd).url
      = t.baseURL ++ "?name=" ++ encodeURIComponent (taskName t) ∧
    (simpleUploadRequest t bd).contentType = "multipart/related; boundary=" ++ bd ∧
    (simpleUploadRequest t bd).uploadProtocol = "multipart" ∧
    (simpleUploadRequest t bd).metadataPartType = "application/json; charset=UTF-8" ∧
    (simpleUploadRequest t bd).metadataPartContent = jsonStringify t.metadata ∧
    (simpleUploadRequest t bd).payloadSize = t.blob.size := by
  refine ⟨?_, ?_, rfl, rfl, rfl, rfl⟩
  · show t.baseURL ++ objectToQuery [("name", some (taskName t))] = _
    rw [String.append_assoc]
    exact congrArg (fun q => t.baseURL ++ q) (by rfl)
  · show replaceFirstStr ("multipart/form-data; boundary=" ++ bd) "form-data" "related" = _
    unfold replaceFirstStr
    rw [String.data_append, replaceFirstList_formData]
    rfl

/-- C10: the constructor stores `metadata.name` as the given name with at
most one leading slash stripped — a name not starting with `/` is stored
unchanged, and of several leading slashes only the first is removed — and the
task's own `name` and `contentType` values override any caller-supplied
metadata keys. -/
theorem c10_constructor_metadata :
    (∀ (bucket name : String) (b : Blob) (md : List (String × String)),
      objGet (mkUploadTask bucket name b md).metadata "name"
        = some (stripLeadingSlash name) ∧
      objGet (mkUploadTask bucket name b md).metadata "contentType" = some b.type) ∧
    (∀ s : String, s.data.head? ≠ some '/' → stripLeadingSlash s = s) ∧
    (∀ l : List Char, stripLeadingSlash (String.mk ('/' :: l)) = String.mk l) ∧
    (∀ l : List Char,
      stripLeadingSlash (String.mk ('/' :: '/' :: l)) = String.mk ('/' :: l)) := by
  refine ⟨?_, ?_, ?_, ?_⟩
  · intro bucket name b md
    have e : (mkUploadTask bucket name b md).metadata.reverse
        = ("contentType", b.type) :: ("name", stripLeadingSlash name) :: md.reverse := by
      simp [mkUploadTask]
    constructor
    · unfold objGet
      rw [e]
      rw [List.find?_cons_of_neg _ (by simp)]
      rw [List.find?_cons_of_pos _ (by simp)]
      rfl
    · unfold objGet
      rw [e]
      rw [List.find?_cons_of_pos _ (by simp)]
      rfl
  · intro s h
    unfold stripLeadingSlash
    split
    · rename_i rest heq
      exact absurd (by rw [heq]; rfl) h
    · rfl
  · intro l
    rfl
  · intro l
    rfl

/-- C10, witness: a name with no leading slash is stored unchanged. -/
theorem c10_witness : stripLeadingSlash "path/to/obj" = "path/to/obj" :=
  c10_constructor_metadata.2.1 "path/to/obj" (by decide)

end FirebaseStorageLite
